import Mathlib

/-!
# Verification of the voice dictation widget (spelling-app)

Shallow embedding of the dictation widget's state machine and text
formatting, translated from the repository's sources:

* `src/app/page.tsx` — the main widget (last-result read, MAX_HISTORY,
  immediate restart on end).
* `src/unnamed/part_000` — two variants: the "Spell It Out" fold variant
  with the pure `spellWord` function, and the timer variant with the
  2-second interim debounce and the 100 ms delayed auto-restart
  (`stopRecognition` / `startRecognition` / `toggleListening`,
  lines 339–547 of the file).
* `src/unnamed/part_001` — the double-space spelling variant.

Strings are embedded as `List Char`; fixed UI messages are kept as `String`
constants. Timers are embedded as absolute deadlines (`Option Nat`) in the
state together with the current time `now`; the passage of time (`elapse`)
fires every due timer. Engine calls (`start`, `stop`) are external side
effects; where the code catches their synchronous exceptions, the embedded
transition takes a `Bool` telling whether the call succeeded, and where the
code ignores the outcome the transition ignores the `Bool`.

The final-result branch of `onresult` is written identically in
`page.tsx` (lines 73–90), in the timer variant of `part_000`
(lines 404–428) and in `part_001` (lines 72–96); the embedding below
follows the timer variant, which carries the most structure (history cap,
debounce deadline, restart deadline).
-/

/-- JS `String.prototype.trim` on the whitespace characters that occur in
speech transcripts: drop leading and trailing whitespace. -/
def trimText (s : List Char) : List Char :=
  ((s.dropWhile Char.isWhitespace).reverse.dropWhile Char.isWhitespace).reverse

/-- `text.charAt(0).toUpperCase() + text.slice(1).toLowerCase()` —
first character uppercased, remainder lowercased
(`page.tsx` line 79, `part_000` line 411, `part_001` line 79). -/
def titleCase : List Char → List Char
  | [] => []
  | c :: cs => c.toUpper :: cs.map Char.toLower

/-- JS `Array.prototype.join` with a separator, as used by
`split("").join(sep)`: concatenate the pieces with `sep` between them. -/
def joinSep (sep : List Char) : List (List Char) → List Char
  | [] => []
  | [p] => p
  | p :: ps => p ++ sep ++ joinSep sep ps

/-- `spellWord` from the "Spell It Out" variant (`part_000` lines 110–114):
empty for blank input, otherwise the trimmed input uppercased with its
characters (from `split("")`) joined by single spaces. -/
def spellWord (text : List Char) : List Char :=
  if trimText text = [] then []
  else
    let cleaned := (trimText text).map Char.toUpper
    joinSep [' '] (cleaned.map (fun c => [c]))

/-- `MAX_HISTORY` (`page.tsx` line 47, `part_000` line 337). -/
def MAX_HISTORY : Nat := 5

/-- One entry of the engine's `SpeechRecognitionResultList`: its finality
flag and the transcript of its best alternative (`result[0].transcript`). -/
structure SpeechResult where
  isFinal : Bool
  transcript : List Char
  deriving DecidableEq, Repr

/-- The widget's session state. React `useState` hooks become fields;
the two `setTimeout` handles become absolute deadlines measured against
`now` (milliseconds). `isStarting` is the button-disable flag of the
timer variant. -/
structure WidgetState where
  now : Nat
  isListening : Bool
  word : List Char
  history : List (List Char)
  interim : Bool
  error : String
  isStarting : Bool
  interimDeadline : Option Nat
  restartDeadline : Option Nat
  deriving DecidableEq, Repr

/-- The state right after mount: all `useState` defaults
(`part_000` lines 340–349). -/
def initState : WidgetState :=
  { now := 0, isListening := false, word := [], history := [],
    interim := false, error := "", isStarting := false,
    interimDeadline := none, restartDeadline := none }

/-- `onresult` (`part_000` lines 404–428; same logic in `page.tsx`
lines 73–90 and `part_001` lines 72–96, the latter without the history
update): read the last entry of the result list; on a final entry with
non-blank transcript, title-case it, set it as the word, prepend it to the
history capped at `MAX_HISTORY`, and clear `interim`; on a final blank
entry only clear `interim`; on a non-final entry with non-blank text set
`interim` and restart the 2-second debounce (`clearTimeout` +
`setTimeout(..., 2000)` becomes replacing the deadline). The platform
never delivers an empty result list (indexing `results[-1]` would fault),
so that case leaves the state unchanged. -/
def onresult (s : WidgetState) (results : List SpeechResult) : WidgetState :=
  match results.getLast? with
  | none => s
  | some lastResult =>
    if lastResult.isFinal then
      let text := trimText lastResult.transcript
      if text = [] then
        { s with interim := false }
      else
        let tc := titleCase text
        { s with word := tc,
                 history := (tc :: s.history).take MAX_HISTORY,
                 interim := false }
    else
      let interimText := trimText lastResult.transcript
      if interimText = [] then s
      else { s with interim := true,
                    interimDeadline := some (s.now + 2000) }

/-- `onerror` (`page.tsx` lines 92–96, `part_000` lines 430–434,
`part_001` lines 98–102): generic message, stop listening, clear interim.
It touches no timer and calls no engine method. -/
def onerror (s : WidgetState) : WidgetState :=
  { s with error := "Error occurred", isListening := false, interim := false }

/-- `onend` of the delayed-restart variant (`part_000` lines 436–450):
clear `interim`, cancel any pending restart timer, and, only when the
widget still believes it is listening, schedule a restart attempt 100 ms
from now. -/
def onend (s : WidgetState) : WidgetState :=
  let s1 := { s with interim := false, restartDeadline := none }
  if s1.isListening then { s1 with restartDeadline := some (s1.now + 100) }
  else s1

/-- `onend` of the immediate-restart variants (`page.tsx` lines 98–107,
`part_001` lines 104–113): clear `interim`; when still listening, attempt
`recognition.start()` at once inside `try { } catch { }` — the attempt
writes no state whether it succeeds (`startOk = true`) or throws. The
returned flag records whether an attempt was made. -/
def onendImmediate (startOk : Bool) (s : WidgetState) : WidgetState × Bool :=
  let s1 := { s with interim := false }
  if s1.isListening then (s1, true) else (s1, false)

/-- The body of the 100 ms restart timer (`part_000` lines 442–448):
`try { recognitionRef.current?.start(); } catch { }` — no state is
written in either branch, so firing the timer only consumes it;
`startOk` (whether `start()` succeeded) is irrelevant to the state. -/
def restartFire (startOk : Bool) (s : WidgetState) : WidgetState :=
  { s with restartDeadline := none }

/-- Fire the interim debounce timer if its deadline has been reached: its
body is `setInterim(false)` (`part_000` lines 423–425). -/
def fireInterimTimer (s : WidgetState) : WidgetState :=
  match s.interimDeadline with
  | some d => if d ≤ s.now then { s with interim := false, interimDeadline := none } else s
  | none => s

/-- Fire the delayed-restart timer if its deadline has been reached. -/
def fireRestartTimer (restartOk : Bool) (s : WidgetState) : WidgetState :=
  match s.restartDeadline with
  | some d => if d ≤ s.now then restartFire restartOk s else s
  | none => s

/-- Fire every timer whose deadline has been reached. -/
def fireTimers (restartOk : Bool) (s : WidgetState) : WidgetState :=
  fireRestartTimer restartOk (fireInterimTimer s)

/-- Let `dt` milliseconds pass with no external event: advance the clock
and fire every timer that has come due. `restartOk` says whether an engine
`start()` attempted by the restart timer during this interval would
succeed. -/
def elapse (dt : Nat) (restartOk : Bool) (s : WidgetState) : WidgetState :=
  fireTimers restartOk { s with now := s.now + dt }

/-- `stopRecognition` (`part_000` lines 351–361; inlined in `page.tsx`
lines 115–122 and `part_001` lines 117–120): request engine stop (errors
ignored), leave listening, clear interim. It does not cancel the restart
timer. -/
def stopRecognition (s : WidgetState) : WidgetState :=
  { s with isListening := false, interim := false }

/-- `startRecognition` (`part_000` lines 363–380; inlined in `page.tsx`
lines 123–134): clear the error and the word, optimistically show the
interim spinner, then call `start()`. On success become listening; on a
synchronous throw the exception is caught locally and the state is rolled
back with the fixed start-failure message. `isStarting` is raised during
the body and lowered at its end. -/
def startRecognition (startOk : Bool) (s : WidgetState) : WidgetState :=
  let s1 := { s with error := "", isStarting := true, word := [], interim := true }
  let s2 :=
    if startOk then { s1 with isListening := true }
    else { s1 with error := "Failed to start", isListening := false, interim := false }
  { s2 with isStarting := false }

/-- `toggleListening` (`part_000` lines 382–388, `page.tsx`
lines 112–136): stop when listening, otherwise try to start. -/
def toggleListening (startOk : Bool) (s : WidgetState) : WidgetState :=
  if s.isListening then stopRecognition s else startRecognition startOk s

/-- Everything that can happen to the mounted widget: an engine result,
the engine error callback, the engine end callback, a user toggle (with
the outcome of the engine `start()` it may issue), or the passage of time
(with the outcome of any restart attempt the timers make). -/
inductive WAction where
  | result (results : List SpeechResult)
  | err
  | ended
  | toggle (startOk : Bool)
  | timePass (dt : Nat) (restartOk : Bool)
  deriving DecidableEq, Repr

/-- Apply one action to the widget state. -/
def step (s : WidgetState) : WAction → WidgetState
  | .result rs => onresult s rs
  | .err => onerror s
  | .ended => onend s
  | .toggle b => toggleListening b s
  | .timePass dt b => elapse dt b s

/-- Run a sequence of actions from a state. -/
def run (s : WidgetState) (as : List WAction) : WidgetState :=
  as.foldl step s

/-- Whether an action is a recognition-result event. -/
def isResultAction : WAction → Bool
  | .result _ => true
  | _ => false

/-! ## Helper lemmas -/

/-- The final branch of `onresult` with non-blank text, spelled out. -/
theorem onresult_final_nonempty (s : WidgetState) (rs : List SpeechResult)
    (r : SpeechResult) (h1 : rs.getLast? = some r) (h2 : r.isFinal = true)
    (h3 : trimText r.transcript ≠ []) :
    onresult s rs =
      { s with word := titleCase (trimText r.transcript),
               history := (titleCase (trimText r.transcript) :: s.history).take MAX_HISTORY,
               interim := false } := by
  simp [onresult, h1, h2, h3]

/-- The interim branch of `onresult` with non-blank text, spelled out. -/
theorem onresult_interim_nonempty (s : WidgetState) (rs : List SpeechResult)
    (r : SpeechResult) (h1 : rs.getLast? = some r) (h2 : r.isFinal = false)
    (h3 : trimText r.transcript ≠ []) :
    onresult s rs =
      { s with interim := true, interimDeadline := some (s.now + 2000) } := by
  simp [onresult, h1, h2, h3]

/-- A step either keeps the history or prepends one word and re-caps it. -/
theorem onresult_history_shape (s : WidgetState) (rs : List SpeechResult) :
    (onresult s rs).history = s.history ∨
    ∃ w, (onresult s rs).history = (w :: s.history).take MAX_HISTORY := by
  unfold onresult
  cases hrs : rs.getLast? with
  | none => exact Or.inl rfl
  | some r =>
    by_cases hf : r.isFinal = true
    · by_cases ht : trimText r.transcript = []
      · exact Or.inl (by simp [hf, ht])
      · exact Or.inr ⟨titleCase (trimText r.transcript), by simp [hf, ht]⟩
    · by_cases ht : trimText r.transcript = []
      · exact Or.inl (by simp [hf, ht])
      · exact Or.inl (by simp [hf, ht])

theorem onend_history (s : WidgetState) : (onend s).history = s.history := by
  unfold onend
  dsimp only
  split <;> rfl

theorem fireInterimTimer_history (s : WidgetState) :
    (fireInterimTimer s).history = s.history := by
  unfold fireInterimTimer
  split
  · split <;> rfl
  · rfl

theorem fireRestartTimer_history (b : Bool) (s : WidgetState) :
    (fireRestartTimer b s).history = s.history := by
  unfold fireRestartTimer restartFire
  split
  · split <;> rfl
  · rfl

theorem fireTimers_history (b : Bool) (s : WidgetState) :
    (fireTimers b s).history = s.history := by
  unfold fireTimers
  rw [fireRestartTimer_history, fireInterimTimer_history]

theorem toggleListening_history (b : Bool) (s : WidgetState) :
    (toggleListening b s).history = s.history := by
  unfold toggleListening stopRecognition startRecognition
  dsimp only
  split
  · rfl
  · cases b <;> rfl

theorem step_history_length_le (s : WidgetState) (a : WAction)
    (h : s.history.length ≤ MAX_HISTORY) :
    (step s a).history.length ≤ MAX_HISTORY := by
  cases a with
  | result rs =>
    rcases onresult_history_shape s rs with heq | ⟨w, heq⟩
    · simpa [step, heq] using h
    · simp only [step, heq, List.length_take]
      omega
  | err => simpa [step, onerror] using h
  | ended => simpa [step, onend_history] using h
  | toggle b => simpa [step, toggleListening_history] using h
  | timePass dt b => simpa [step, elapse, fireTimers_history] using h

theorem run_history_length_le (as : List WAction) :
    ∀ s : WidgetState, s.history.length ≤ MAX_HISTORY →
      (run s as).history.length ≤ MAX_HISTORY := by
  induction as with
  | nil => exact fun s h => h
  | cons a as ih =>
    intro s h
    exact ih (step s a) (step_history_length_le s a h)

theorem fireInterimTimer_interim_mono (s : WidgetState)
    (h : s.interim = false) : (fireInterimTimer s).interim = false := by
  unfold fireInterimTimer
  split
  · split
    · rfl
    · exact h
  · exact h

theorem fireRestartTimer_interim (b : Bool) (s : WidgetState) :
    (fireRestartTimer b s).interim = s.interim := by
  unfold fireRestartTimer restartFire
  split
  · split <;> rfl
  · rfl

theorem fireTimers_interim_mono (b : Bool) (s : WidgetState)
    (h : s.interim = false) : (fireTimers b s).interim = false := by
  unfold fireTimers
  rw [fireRestartTimer_interim]
  exact fireInterimTimer_interim_mono s h

theorem fireInterimTimer_due (s : WidgetState) (d : Nat)
    (h1 : s.interimDeadline = some d) (h2 : d ≤ s.now) :
    (fireInterimTimer s).interim = false := by
  unfold fireInterimTimer
  rw [h1]
  simp [h2]

/-- `split("").join(" ")` is interspersing a single space. -/
theorem joinSep_singletons (l : List Char) :
    joinSep [' '] (l.map fun c => [c]) = List.intersperse ' ' l := by
  induction l with
  | nil => rfl
  | cons c cs ih =>
    cases cs with
    | nil => rfl
    | cons d ds =>
      show c :: ' ' :: joinSep [' '] ((d :: ds).map fun c => [c])
          = c :: ' ' :: List.intersperse ' ' (d :: ds)
      rw [ih]

/-! ## Claim theorems -/

/-- C1: for every recognition event whose most recent result entry is final
with a transcript that is non-empty after trimming, the result handler sets
the displayed current word to the title-cased, trimmed transcript of that
final entry, regardless of how many interim events preceded it (`pre` is an
arbitrary sequence of earlier recognition events already folded into the
state). -/
theorem final_event_sets_titlecased_word (s : WidgetState)
    (pre : List (List SpeechResult)) (rs : List SpeechResult) (r : SpeechResult)
    (h1 : rs.getLast? = some r) (h2 : r.isFinal = true)
    (h3 : trimText r.transcript ≠ []) :
    (onresult (pre.foldl onresult s) rs).word = titleCase (trimText r.transcript) := by
  rw [onresult_final_nonempty _ rs r h1 h2 h3]

theorem final_event_sets_titlecased_word_witness :
    (onresult (List.foldl onresult initState [[⟨false, "he".data⟩]])
        [⟨true, " hello world ".data⟩]).word
      = titleCase (trimText " hello world ".data) :=
  final_event_sets_titlecased_word initState [[⟨false, "he".data⟩]]
    [⟨true, " hello world ".data⟩] ⟨true, " hello world ".data⟩
    (by decide) (by decide) (by decide)

/-- C2: the history never exceeds `MAX_HISTORY` entries after any sequence
of operations from the initial state; after each insertion of a new final
word, the history equals the new word prepended to the old history and
re-capped at `MAX_HISTORY` (so the new word is at index 0 and entries
beyond capacity are dropped from the tail). -/
theorem history_capacity_and_fifo :
    (∀ as : List WAction, (run initState as).history.length ≤ MAX_HISTORY) ∧
    (∀ (s : WidgetState) (rs : List SpeechResult) (r : SpeechResult),
      rs.getLast? = some r → r.isFinal = true → trimText r.transcript ≠ [] →
      (onresult s rs).history
          = (titleCase (trimText r.transcript) :: s.history).take MAX_HISTORY ∧
      (onresult s rs).history.head? = some (titleCase (trimText r.transcript))) := by
  constructor
  · intro as
    exact run_history_length_le as initState (by simp [initState])
  · intro s rs r h1 h2 h3
    rw [onresult_final_nonempty s rs r h1 h2 h3]
    exact ⟨rfl, by simp [MAX_HISTORY]⟩

theorem history_capacity_and_fifo_witness :
    (run initState [WAction.result [⟨true, "a".data⟩], WAction.result [⟨true, "b".data⟩],
        WAction.result [⟨true, "c".data⟩], WAction.result [⟨true, "d".data⟩],
        WAction.result [⟨true, "e".data⟩], WAction.result [⟨true, "f".data⟩]]).history.length
        ≤ MAX_HISTORY ∧
    (onresult initState [⟨true, "hi".data⟩]).history
        = (titleCase (trimText "hi".data) :: initState.history).take MAX_HISTORY :=
  ⟨history_capacity_and_fifo.1 _,
   (history_capacity_and_fifo.2 initState [⟨true, "hi".data⟩] ⟨true, "hi".data⟩
      (by decide) (by decide) (by decide)).1⟩

/-- C10: a final result entry whose transcript trims to the empty string
leaves the current word and the history unchanged while still clearing
`interim`. -/
theorem blank_final_is_frame (s : WidgetState) (rs : List SpeechResult)
    (r : SpeechResult) (h1 : rs.getLast? = some r) (h2 : r.isFinal = true)
    (h3 : trimText r.transcript = []) :
    (onresult s rs).word = s.word ∧ (onresult s rs).history = s.history ∧
    (onresult s rs).interim = false := by
  simp [onresult, h1, h2, h3]

theorem blank_final_is_frame_witness :
    (onresult initState [⟨false, "x".data⟩, ⟨true, "  ".data⟩]).word = initState.word ∧
    (onresult initState [⟨false, "x".data⟩, ⟨true, "  ".data⟩]).history = initState.history ∧
    (onresult initState [⟨false, "x".data⟩, ⟨true, "  ".data⟩]).interim = false :=
  blank_final_is_frame initState [⟨false, "x".data⟩, ⟨true, "  ".data⟩]
    ⟨true, "  ".data⟩ (by decide) (by decide) (by decide)

/-- C5: when `toggleListening` is called while not listening and the
engine's `start()` throws synchronously, the exception is caught locally
(the embedded transition is a total function — nothing propagates),
`listening` remains false and the fixed start-failure message is set. -/
theorem start_failure_is_contained (s : WidgetState) (h : s.isListening = false) :
    (toggleListening false s).isListening = false ∧
    (toggleListening false s).error = "Failed to start" ∧
    (toggleListening false s).interim = false := by
  simp [toggleListening, startRecognition, h]

theorem start_failure_is_contained_witness :
    (toggleListening false initState).isListening = false ∧
    (toggleListening false initState).error = "Failed to start" ∧
    (toggleListening false initState).interim = false :=
  start_failure_is_contained initState (by decide)

/-- C6: the engine error callback sets the generic error message and
forces `listening` and `interim` to false; it schedules no restart itself
(the restart deadline is untouched), and the auto-restart path is never
taken afterwards: the delayed-variant end callback leaves no restart
scheduled and the immediate-variant end callback makes no start attempt,
because `listening` is already false. -/
theorem error_callback_is_terminal (s : WidgetState) (b : Bool) :
    (onerror s).error = "Error occurred" ∧
    (onerror s).isListening = false ∧
    (onerror s).interim = false ∧
    (onerror s).restartDeadline = s.restartDeadline ∧
    (onend (onerror s)).restartDeadline = none ∧
    (onendImmediate b (onerror s)).2 = false := by
  refine ⟨rfl, rfl, rfl, rfl, ?_, ?_⟩
  · simp [onend, onerror]
  · simp [onendImmediate, onerror]

/-- C7: the end callback clears `interim`; the delayed variant schedules a
restart attempt 100 ms out exactly when `listening` is still true, and the
immediate variant makes a restart attempt exactly when `listening` is
still true; a synchronous failure of the attempt is swallowed — neither
the attempt flag nor the state depends on whether `start()` succeeded, and
the user-visible error is unchanged. -/
theorem end_callback_restart_policy (s : WidgetState) :
    (onend s).interim = false ∧
    (s.isListening = true → (onend s).restartDeadline = some (s.now + 100)) ∧
    (s.isListening = false → (onend s).restartDeadline = none) ∧
    (onend s).error = s.error ∧
    (∀ b : Bool, restartFire b s = restartFire true s ∧ (restartFire b s).error = s.error) ∧
    (∀ b : Bool, (onendImmediate b s).2 = s.isListening ∧
      (onendImmediate b s).1.interim = false ∧
      onendImmediate b s = onendImmediate true s ∧
      (onendImmediate b s).1.error = s.error) := by
  refine ⟨?_, ?_, ?_, ?_, ?_, ?_⟩
  · unfold onend
    dsimp only
    split <;> rfl
  · intro h
    simp [onend, h]
  · intro h
    simp [onend, h]
  · unfold onend
    dsimp only
    split <;> rfl
  · intro b
    exact ⟨rfl, rfl⟩
  · intro b
    cases hl : s.isListening <;> simp [onendImmediate, hl]

theorem end_callback_restart_policy_witness :
    (onend (run initState [WAction.toggle true])).restartDeadline
        = some ((run initState [WAction.toggle true]).now + 100) ∧
    (onend initState).restartDeadline = none :=
  ⟨(end_callback_restart_policy (run initState [WAction.toggle true])).2.1 (by decide),
   (end_callback_restart_policy initState).2.2.1 (by decide)⟩

/-- C3 counterexample: `interim` can be true although no recognition event
of any kind has ever arrived — the single action of the trace is a user
toggle that starts listening (`setInterim(true)` is done optimistically by
the start path, `page.tsx` line 126 and `part_000` line 367), so the claim
"interimActive is true only if a non-final recognition event has arrived
within the last 2 seconds" fails on this input. -/
theorem interim_true_without_any_result_event :
    isResultAction (WAction.toggle true) = false ∧
    (run initState [WAction.toggle true]).interim = true := by
  constructor <;> decide

/-- C3 (amended): `interim` is forced false immediately on any final
result, any error callback and any explicit stop via `toggleListening`;
it can only become true on a non-final recognition event with non-blank
trimmed text — which also (re)schedules the 2-second clearing deadline —
or on the optimistic start path of `toggleListening` when the engine
`start()` succeeds. -/
theorem interim_transition_discipline :
    (∀ (s : WidgetState) (rs : List SpeechResult) (r : SpeechResult),
        rs.getLast? = some r → r.isFinal = true → (onresult s rs).interim = false) ∧
    (∀ s : WidgetState, (onerror s).interim = false) ∧
    (∀ (s : WidgetState) (b : Bool), s.isListening = true →
        (toggleListening b s).interim = false) ∧
    (∀ (s : WidgetState) (rs : List SpeechResult) (r : SpeechResult),
        rs.getLast? = some r → r.isFinal = false → trimText r.transcript ≠ [] →
        (onresult s rs).interimDeadline = some (s.now + 2000)) ∧
    (∀ (s : WidgetState) (a : WAction), s.interim = false → (step s a).interim = true →
        (∃ rs r, a = WAction.result rs ∧ rs.getLast? = some r ∧ r.isFinal = false ∧
            trimText r.transcript ≠ []) ∨
        (a = WAction.toggle true ∧ s.isListening = false)) := by
  refine ⟨?_, ?_, ?_, ?_, ?_⟩
  · intro s rs r h1 h2
    by_cases h3 : trimText r.transcript = []
    · simp [onresult, h1, h2, h3]
    · simp [onresult, h1, h2, h3]
  · intro s
    rfl
  · intro s b h
    simp [toggleListening, stopRecognition, h]
  · intro s rs r h1 h2 h3
    simp [onresult, h1, h2, h3]
  · intro s a hfalse htrue
    cases a with
    | result rs =>
      cases hrs : rs.getLast? with
      | none => simp [step, onresult, hrs, hfalse] at htrue
      | some r =>
        by_cases hf : r.isFinal = true
        · simp [step, onresult, hrs, hf] at htrue
          by_cases ht : trimText r.transcript = [] <;> simp [ht] at htrue
        · by_cases ht : trimText r.transcript = []
          · simp [step, onresult, hrs, hf, ht, hfalse] at htrue
          · exact Or.inl ⟨rs, r, rfl, hrs, by simpa using hf, ht⟩
    | err => simp [step, onerror] at htrue
    | ended =>
      rw [step] at htrue
      unfold onend at htrue
      dsimp only at htrue
      split at htrue <;> simp at htrue
    | toggle b =>
      cases hl : s.isListening
      · cases b
        · simp [step, toggleListening, startRecognition, hl] at htrue
        · exact Or.inr ⟨rfl, rfl⟩
      · simp [step, toggleListening, stopRecognition, hl] at htrue
    | timePass dt b =>
      rw [step, elapse] at htrue
      rw [fireTimers_interim_mono b { s with now := s.now + dt } hfalse] at htrue
      exact absurd htrue (by simp)

theorem interim_transition_discipline_witness :
    (onresult initState [⟨true, "yes".data⟩]).interim = false ∧
    (toggleListening true (run initState [WAction.toggle true])).interim = false :=
  ⟨interim_transition_discipline.1 initState [⟨true, "yes".data⟩] ⟨true, "yes".data⟩
      (by decide) (by decide),
   interim_transition_discipline.2.2.1 (run initState [WAction.toggle true]) true (by decide)⟩

/-- C4: a non-final event with non-blank trimmed text sets `interim` and
(re)starts the 2-second countdown — the deadline is replaced by
`now + 2000` whatever it was before (debounce) — and if at least 2000 ms
then pass with no further event, the countdown fires and `interim` is
false, whatever the outcome of any restart attempt in that interval. -/
theorem interim_debounce_correct (s : WidgetState) (rs : List SpeechResult)
    (r : SpeechResult) (h1 : rs.getLast? = some r) (h2 : r.isFinal = false)
    (h3 : trimText r.transcript ≠ []) :
    (onresult s rs).interim = true ∧
    (onresult s rs).interimDeadline = some (s.now + 2000) ∧
    (∀ (dt : Nat) (b : Bool), 2000 ≤ dt →
        (elapse dt b (onresult s rs)).interim = false) := by
  rw [onresult_interim_nonempty s rs r h1 h2 h3]
  refine ⟨rfl, rfl, ?_⟩
  intro dt b hdt
  rw [elapse, fireTimers, fireRestartTimer_interim]
  exact fireInterimTimer_due _ (s.now + 2000) rfl
    (by show s.now + 2000 ≤ s.now + dt; omega)

theorem interim_debounce_correct_witness :
    (onresult initState [⟨false, "part".data⟩]).interim = true ∧
    (elapse 2000 true (onresult initState [⟨false, "part".data⟩])).interim = false :=
  ⟨(interim_debounce_correct initState [⟨false, "part".data⟩] ⟨false, "part".data⟩
      (by decide) (by decide) (by decide)).1,
   (interim_debounce_correct initState [⟨false, "part".data⟩] ⟨false, "part".data⟩
      (by decide) (by decide) (by decide)).2.2 2000 true (by decide)⟩

/-- C8: `spellWord` is a pure function; on input whose trim is blank it
returns the empty string, otherwise the trimmed input uppercased with its
characters joined by single spaces; on the transcript "hello world" the
displayed word (title-cased by the result handler) is "Hello world" and
the mode-(a) spelling is "H E L L O   W O R L D". -/
theorem spelling_mode_a_correct :
    (∀ t : List Char, trimText t = [] → spellWord t = []) ∧
    (∀ t : List Char, trimText t ≠ [] →
        spellWord t = List.intersperse ' ' ((trimText t).map Char.toUpper)) ∧
    titleCase (trimText "hello world".data) = "Hello world".data ∧
    (onresult initState [⟨true, "hello world".data⟩]).word = "Hello world".data ∧
    spellWord "hello world".data = "H E L L O   W O R L D".data := by
  refine ⟨?_, ?_, by decide, by decide, by decide⟩
  · intro t h
    simp [spellWord, h]
  · intro t h
    unfold spellWord
    rw [if_neg h]
    exact joinSep_singletons ((trimText t).map Char.toUpper)

theorem spelling_mode_a_correct_witness :
    spellWord "  ".data = [] ∧
    spellWord " ab ".data = List.intersperse ' ' ((trimText " ab ".data).map Char.toUpper) :=
  ⟨spelling_mode_a_correct.1 "  ".data (by decide),
   spelling_mode_a_correct.2.1 " ab ".data (by decide)⟩

/-- C9 counterexample: from the reachable state produced by start →
unsolicited end (which schedules the 100 ms auto-restart) → stop, the
widget is not listening but the restart timer is still pending, because
`stopRecognition` (`part_000` lines 351–361) never cancels it; toggling
twice (a successful start, then a stop, with no callback in between)
leaves `listening = false` yet the auto-restart is still scheduled —
refuting the claim that no pending auto-restart remains for every state. -/
theorem pending_restart_survives_double_toggle :
    (run initState [WAction.toggle true, WAction.ended, WAction.toggle true]).isListening
        = false ∧
    (toggleListening true (toggleListening true
        (run initState [WAction.toggle true, WAction.ended, WAction.toggle true]))).isListening
        = false ∧
    (toggleListening true (toggleListening true
        (run initState [WAction.toggle true, WAction.ended, WAction.toggle true]))).restartDeadline
        = some 100 := by
  refine ⟨by decide, by decide, by decide⟩

/-- C9 (amended): from any state that is not listening and has no pending
auto-restart timer, calling `toggleListening` twice in immediate
succession (a successful start followed by a stop, before any engine
callback or timer fires) leaves `listening = false` and leaves no pending
auto-restart timer; a restart timer already pending beforehand, however,
survives both toggles. -/
theorem double_toggle_idle_no_restart (s : WidgetState)
    (h1 : s.isListening = false) (h2 : s.restartDeadline = none) :
    (toggleListening true (toggleListening true s)).isListening = false ∧
    (toggleListening true (toggleListening true s)).restartDeadline = none := by
  simp [toggleListening, startRecognition, stopRecognition, h1, h2]

theorem double_toggle_idle_no_restart_witness :
    (toggleListening true (toggleListening true initState)).isListening = false ∧
    (toggleListening true (toggleListening true initState)).restartDeadline = none :=
  double_toggle_idle_no_restart initState (by decide) (by decide)
